import Mathlib

set_option maxHeartbeats 1000000

/-!
Shallow embedding of the resolute/gsheet library (src/index.ts).

The embedding models the Gsheet class: its two cache cells (the Keeper for the
full grid and the Keeper for the column list), the read operations rows, columns
and data, the write operation append with its input normalization, and the
default helper functions trim, noChange and noFilter.  The remote Sheets API is
an opaque collaborator: a function from a range string to an optional grid for
reads, and a function returning an optional append response for writes, where a
none result stands for a thrown request.  Every operation returns its result,
the successor cache state, and the list of ranges fetched from the remote, so
that fetch-count properties can be stated directly.
-/

namespace Gsheet

/-- Values of the InputTypes union from the source: boolean, string, number or null. -/
inductive InputType
  | str (s : String)
  | boolean (b : Bool)
  | num (n : Int)
  | null
deriving DecidableEq, Repr

/-- A possibly undefined JS value; none stands for undefined. -/
abbrev JsVal := Option InputType

/-- The two-dimensional string grid returned by the values.get endpoint. -/
abbrev Grid := List (List String)

/-- A JS object with string values, modelled as an insertion-ordered key-value list. -/
abbrev RowObject := List (String × String)

/-- The character class of the regex backslash-s and of String.prototype.trim in JS. -/
def jsWhitespace (c : Char) : Bool :=
  c == ' ' || c == '\t' || c == '\n' || c == '\u000B' || c == '\u000C' || c == '\r' ||
  c == '\u00A0' || c == '\u1680' || (0x2000 <= c.toNat && c.toNat <= 0x200a) ||
  c == '\u2028' || c == '\u2029' || c == '\u202F' || c == '\u205F' ||
  c == '\u3000' || c == '\uFEFF'

/-- One pass of the replacement of the regex backslash-s-plus by a single space:
the boolean records whether the previous character belonged to a whitespace run,
so each maximal run emits exactly one space. -/
def collapseAux : Bool → List Char → List Char
  | _, [] => []
  | prevWs, c :: rest =>
    if jsWhitespace c then
      if prevWs then collapseAux true rest
      else ' ' :: collapseAux true rest
    else c :: collapseAux false rest

/-- Removal of trailing whitespace, second half of String.prototype.trim. -/
def dropTrailingWs (l : List Char) : List Char :=
  (l.reverse.dropWhile jsWhitespace).reverse

/-- String.prototype.trim on a character list: drop whitespace from both ends. -/
def jsTrimChars (l : List Char) : List Char :=
  dropTrailingWs (l.dropWhile jsWhitespace)

/-- The string action of the default sanitize function of the source:
replace each whitespace run by a single space, then trim both ends. -/
def trimStr (s : String) : String :=
  ⟨jsTrimChars (collapseAux false s.data)⟩

/-- The default sanitize function trim of the source: on strings it collapses
whitespace runs and trims the ends; any non-string value passes through unchanged. -/
def trim : InputType → InputType
  | .str s => .str (trimStr s)
  | v => v

/-- The default key transform of the source: the identity on strings. -/
def noChange (s : String) : String := s

/-- The default row filter of the source: accept everything. -/
def noFilter : Sum (List String) RowObject → Bool := fun _ => true

/-- The toLowerCase of JS on the ASCII range, as a computable list map. -/
def jsToLower (s : String) : String := ⟨s.data.map Char.toLower⟩

/-- Maximal whitespace-free words of a character list; the accumulator holds the
current word reversed.  Used only to express the specified sanitize behaviour. -/
def wordsAux : List Char → List Char → List (List Char)
  | cur, [] => if cur.isEmpty then [] else [cur.reverse]
  | cur, c :: rest =>
    if jsWhitespace c then
      if cur.isEmpty then wordsAux [] rest
      else cur.reverse :: wordsAux [] rest
    else wordsAux (c :: cur) rest

/-- Maximal whitespace-free words of a character list. -/
def wordsOf (l : List Char) : List (List Char) := wordsAux [] l

/-- Join a list of words with single spaces. -/
def joinWords : List (List Char) → List Char
  | [] => []
  | [w] => w
  | w :: ws => w ++ ' ' :: joinWords ws

/-- Modelled from the spec: the default sanitize collapses every internal run of
whitespace to a single space and removes leading and trailing whitespace, which
is the same as joining the maximal whitespace-free words with single spaces. -/
def specSanitize (s : String) : String :=
  ⟨joinWords (wordsOf s.data)⟩

/-- Does the list end in a whitespace character. -/
def endsWs : List Char → Bool
  | [] => false
  | [c] => jsWhitespace c
  | _ :: c :: rest => endsWs (c :: rest)

/-- The single trailing space left by the collapse pass when the input ends in
a whitespace run. -/
def trailMark (l : List Char) : List Char :=
  if endsWs l then [' '] else []

/-- Configuration of a Gsheet instance, the fields of GSheetOptions that the
cache layer reads (the auth and transport fields live in the opaque remote). -/
structure SheetConfig where
  range : String
  headerRows : Nat
  keyTransform : String → String
  sanitize : InputType → InputType
  filter : Sum (List String) RowObject → Bool

/-- Application of the configured sanitize to a grid cell.  The source signature
of sanitize instantiated at string returns a string, so a conforming function
maps strings to strings and the fallback branch is unreachable. -/
def sanitizeCell (cfg : SheetConfig) (c : String) : String :=
  match cfg.sanitize (.str c) with
  | .str t => t
  | _ => c

/-- Application of the configured sanitize on the write path, where a cell may be
undefined: the default trim returns any non-string argument unchanged, so an
undefined cell stays undefined. -/
def sanOpt (cfg : SheetConfig) : JsVal → JsVal
  | some v => some (cfg.sanitize v)
  | none => none

/-- Observable state of a Keeper between completed operations: nothing settled
yet, or a settled value.  In the sequential model every public operation runs to
completion, so the transient pending state never persists between operations;
the interleaving model of the Keeper itself appears further below. -/
inductive KeeperState (α : Type)
  | empty
  | settled (v : α)
deriving DecidableEq, Repr

/-- The two cache cells of a Gsheet instance: keptSheet and keptColumns. -/
structure SheetState where
  gridK : KeeperState Grid
  colsK : KeeperState (List String)
deriving DecidableEq, Repr

/-- The opaque remote Sheets API.  fetch returns the grid for a range, or none
when the request throws or the response carries no values; appendRow returns
none when the request throws, and otherwise the optional updatedRows count of
the response. -/
structure Remote where
  fetch : String → Option Grid
  appendRow : String → List (List JsVal) → Option (Option Nat)

/-- Errors raised by the operations, one constructor per throw site. -/
inductive GErr
  | noData
  | emptyHeader
  | appendRejected
  | remoteThrew
deriving DecidableEq, Repr

/-- Outcome of one operation: the result, the successor cache state, and the
ranges fetched from the remote during the operation, in order. -/
structure OpOut (α : Type) where
  res : Except GErr α
  st : SheetState
  log : List String

/-- The getSheet method at an explicit range: one remote fetch, failing with the
no-data error when the response has no values. -/
def getSheetAt (r : Remote) (ρ : String) : Except GErr Grid :=
  match r.fetch ρ with
  | some g => .ok g
  | none => .error .noData

/-- The narrow header-only range used by getHeaderRowsOnly. -/
def headerRange (cfg : SheetConfig) : String :=
  cfg.range ++ ("!A" ++ toString cfg.headerRows ++ ":ZZZ" ++ toString cfg.headerRows)

/-- keptSheet.get: return the settled grid, or run the producer getSheet on the
configured range, settling on success and reverting to empty on failure. -/
def gridGet (cfg : SheetConfig) (r : Remote) (s : SheetState) : OpOut Grid :=
  match s.gridK with
  | .settled g => ⟨.ok g, s, []⟩
  | .empty =>
    match r.fetch cfg.range with
    | some g => ⟨.ok g, { s with gridK := .settled g }, [cfg.range]⟩
    | none => ⟨.error .noData, s, [cfg.range]⟩

/-- keptSheet.stale: the settled grid, synchronously, or a failure when nothing
is settled; never touches the remote and never changes state. -/
def gridStale (s : SheetState) : Except GErr Grid :=
  match s.gridK with
  | .settled g => .ok g
  | .empty => .error .noData

/-- getColumnsFromSheetCache: try keptSheet.stale and fall back to the narrow
header-only fetch; neither branch changes the grid Keeper. -/
def getColumnsFromSheetCache (cfg : SheetConfig) (r : Remote) (s : SheetState) :
    OpOut Grid :=
  match s.gridK with
  | .settled g => ⟨.ok g, s, []⟩
  | .empty => ⟨getSheetAt r (headerRange cfg), s, [headerRange cfg]⟩

/-- JS array indexing with a possibly negative index: negative indices and
indices past the end read as undefined. -/
def jsIdx (l : List α) (i : Int) : Option α :=
  if 0 ≤ i then l.get? i.toNat else none

/-- getColumns, the producer of keptColumns: take the header row at index
headerRows - 1 of the rows from getColumnsFromSheetCache, failing when it is
undefined or empty, then sanitize and key-transform each name. -/
def getColumns (cfg : SheetConfig) (r : Remote) (s : SheetState) :
    OpOut (List String) :=
  let c := getColumnsFromSheetCache cfg r s
  match c.res with
  | .error e => ⟨.error e, c.st, c.log⟩
  | .ok rows =>
    match jsIdx rows ((cfg.headerRows : Int) - 1) with
    | none => ⟨.error .emptyHeader, c.st, c.log⟩
    | some cols =>
      if cols.isEmpty then ⟨.error .emptyHeader, c.st, c.log⟩
      else ⟨.ok ((cols.map (sanitizeCell cfg)).map cfg.keyTransform), c.st, c.log⟩

/-- The public columns method: keptColumns.get, returning the settled list or
running the producer getColumns, settling on success. -/
def columnsOp (cfg : SheetConfig) (r : Remote) (s : SheetState) :
    OpOut (List String) :=
  match s.colsK with
  | .settled cs => ⟨.ok cs, s, []⟩
  | .empty =>
    let c := getColumns cfg r s
    match c.res with
    | .ok cs => ⟨.ok cs, { c.st with colsK := .settled cs }, c.log⟩
    | .error e => ⟨.error e, c.st, c.log⟩

/-- The public rows method: get the grid, drop the header rows, sanitize every
cell and apply the row filter. -/
def rowsOp (cfg : SheetConfig) (r : Remote) (s : SheetState) : OpOut Grid :=
  let g := gridGet cfg r s
  match g.res with
  | .error e => ⟨.error e, g.st, g.log⟩
  | .ok rows =>
    ⟨.ok (((rows.drop cfg.headerRows).map (fun row => row.map (sanitizeCell cfg))).filter
        (fun row => cfg.filter (.inl row))), g.st, g.log⟩

/-- One step of the reduce inside data: a truthy key at this index writes the
cell under that key, an undefined or empty key skips the cell. -/
def buildObjFrom (keys : List String) : Nat → RowObject → List String → RowObject
  | _, o, [] => o
  | i, o, v :: rest =>
    buildObjFrom keys (i + 1)
      (match keys.get? i with
        | some k => if k = "" then o else
            if o.any (fun p => p.1 == k) then o.map (fun p => if p.1 == k then (k, v) else p)
            else o ++ [(k, v)]
        | none => o) rest

/-- The row-to-object reduce of data: zip cells against column names by index. -/
def buildObj (keys row : List String) : RowObject :=
  buildObjFrom keys 0 [] row

/-- The public data method: rows first, then columns, then the object mapping
and the object filter.  The source requests rows before columns on purpose, so
that an empty grid cache is populated by the full fetch and the columns producer
finds it settled. -/
def dataOp (cfg : SheetConfig) (r : Remote) (s : SheetState) : OpOut (List RowObject) :=
  let rws := rowsOp cfg r s
  match rws.res with
  | .error e => ⟨.error e, rws.st, rws.log⟩
  | .ok rows =>
    let cls := columnsOp cfg r rws.st
    match cls.res with
    | .error e => ⟨.error e, cls.st, rws.log ++ cls.log⟩
    | .ok keys =>
      ⟨.ok ((rows.map (buildObj keys)).filter (fun o => cfg.filter (.inr o))),
        cls.st, rws.log ++ cls.log⟩

/-- The append input: a positional row array or a key-to-value object, the
latter given as its entry list in insertion order. -/
inductive AppendInput
  | arr (row : List InputType)
  | obj (entries : List (String × InputType))
deriving Repr

/-- Lower-case the keys of the entry list, as the source does before matching. -/
def entriesLower (e : List (String × InputType)) : List (String × InputType) :=
  e.map (fun p => (jsToLower p.1, p.2))

/-- The lookup inside normalizeInputData: the first entry whose lowered key
equals the lowered column name, or undefined when no entry matches. -/
def findEntry (e : List (String × InputType)) (k : String) : JsVal :=
  match e.find? (fun p => p.1 == k) with
  | some p => some p.2
  | none => none

/-- normalizeInputData: an array argument is returned as is; an object argument
is matched case-insensitively against the current column names and every
resolved cell is passed through sanitize. -/
def normalizeInputData (cfg : SheetConfig) (r : Remote) (s : SheetState) :
    AppendInput → OpOut (List JsVal)
  | .arr row => ⟨.ok (row.map some), s, []⟩
  | .obj ent =>
    let e := entriesLower ent
    let cls := columnsOp cfg r s
    match cls.res with
    | .error err => ⟨.error err, cls.st, cls.log⟩
    | .ok cols =>
      ⟨.ok ((cols.map (fun k => findEntry e (jsToLower k))).map (sanOpt cfg)),
        cls.st, cls.log⟩

/-- Is the updatedRows field of an append response strictly positive. -/
def updatedOk : Option Nat → Bool
  | some n => decide (0 < n)
  | none => false

/-- The public append method: normalize the input, send the append request, call
keptSheet.fresh as soon as the request returns, and only then inspect the
updatedRows count, rejecting the write when it is absent or zero.  A thrown
request is surfaced before the fresh call.  The falsy-row guard of the source is
dead code, because normalizeInputData always returns an array. -/
def appendOp (cfg : SheetConfig) (r : Remote) (s : SheetState) (arg : AppendInput) :
    OpOut (Option Nat) :=
  let nrm := normalizeInputData cfg r s arg
  match nrm.res with
  | .error e => ⟨.error e, nrm.st, nrm.log⟩
  | .ok row =>
    match r.appendRow cfg.range [row] with
    | none => ⟨.error .remoteThrew, nrm.st, nrm.log⟩
    | some u =>
      if updatedOk u then ⟨.ok u, { nrm.st with gridK := .empty }, nrm.log⟩
      else ⟨.error .appendRejected, { nrm.st with gridK := .empty }, nrm.log⟩

/-- The public refresh method: keptSheet.fresh, a pure invalidation. -/
def refreshOp (s : SheetState) : SheetState :=
  { s with gridK := .empty }

/-- Modelled from the spec: one tick of the interval job installed by keepFresh,
that is keptSheet.start of the keeper package, whose source is not part of this
repository.  A successful background fetch replaces the settled grid; a failed
one leaves the previous state in place. -/
def tickOp (cfg : SheetConfig) (r : Remote) (s : SheetState) : SheetState :=
  match r.fetch cfg.range with
  | some g => { s with gridK := .settled g }
  | none => s

/-- The operations a client can run against one instance, for reachability
statements. -/
inductive SheetOp
  | rows
  | data
  | columns
  | refresh
  | append (arg : AppendInput)
  | tick

/-- The state after one operation. -/
def stepOp (cfg : SheetConfig) (r : Remote) (s : SheetState) : SheetOp → SheetState
  | .rows => (rowsOp cfg r s).st
  | .data => (dataOp cfg r s).st
  | .columns => (columnsOp cfg r s).st
  | .refresh => refreshOp s
  | .append a => (appendOp cfg r s a).st
  | .tick => tickOp cfg r s

/-- The state after a sequence of operations. -/
def runOps (cfg : SheetConfig) (r : Remote) (ops : List SheetOp) (s : SheetState) :
    SheetState :=
  ops.foldl (stepOp cfg r) s

/-- Is an operation result a success. -/
def isOkE : Except GErr α → Bool
  | .ok _ => true
  | .error _ => false

end Gsheet

namespace Keeper

/-!
Modelled from the spec: the Keeper primitive itself lives in the resolute std
package, outside this repository; only its callers are in src.  The spec
describes it as a state machine under single-threaded cooperative scheduling:
get on an empty cell invokes the producer exactly once and moves to pending,
get on a pending cell attaches the caller to the in-flight future, get on a
settled cell answers immediately; when the future settles, every attached
caller receives the same outcome, settling to the value on success and
reverting to empty on failure.
-/

/-- Keeper state: empty, pending with the number of attached callers, or settled. -/
inductive KSt (α : Type)
  | empty
  | pending (waiters : Nat)
  | settled (v : α)
deriving DecidableEq, Repr

/-- Outcome delivered to a caller: the resolved value or the shared failure. -/
inductive KOutcome (α : Type)
  | ok (v : α)
  | fail
deriving DecidableEq, Repr

/-- A run of the Keeper: its state, how many producer invocations have started,
how many have settled, and the groups of callers answered so far, each group
with the one outcome all of its members received. -/
structure KRun (α : Type) where
  st : KSt α
  invoked : Nat
  completed : Nat
  deliveries : List (Nat × KOutcome α)
deriving DecidableEq, Repr

/-- Scheduler events: a caller reaches get, or the in-flight future settles. -/
inductive KEvent (α : Type)
  | getStart
  | settleOk (v : α)
  | settleFail

/-- One atomic transition of the Keeper; transitions never suspend, matching the
cooperative model of the spec. -/
def kStep (k : KRun α) : KEvent α → KRun α
  | .getStart =>
    match k.st with
    | .empty => { k with st := .pending 1, invoked := k.invoked + 1 }
    | .pending w => { k with st := .pending (w + 1) }
    | .settled v => { k with deliveries := k.deliveries ++ [(1, .ok v)] }
  | .settleOk v =>
    match k.st with
    | .pending w =>
      { k with st := .settled v, completed := k.completed + 1,
               deliveries := k.deliveries ++ [(w, .ok v)] }
    | _ => k
  | .settleFail =>
    match k.st with
    | .pending w =>
      { k with st := .empty, completed := k.completed + 1,
               deliveries := k.deliveries ++ [(w, .fail)] }
    | _ => k

/-- The initial run: empty cell, no invocations, no deliveries. -/
def kInit : KRun α := ⟨.empty, 0, 0, []⟩

/-- A run over a list of events from the initial state. -/
def kRun (evs : List (KEvent α)) : KRun α := evs.foldl kStep kInit

/-- How many producer invocations a state keeps in flight. -/
def pendCount : KSt α → Nat
  | .pending _ => 1
  | _ => 0

end Keeper

namespace Gsheet

/-- A configuration with the default options of the source: one header row,
identity key transform, the default trim sanitize, and the accept-all filter. -/
def demoConfig : SheetConfig :=
  { range := "Sheet1!A:B", headerRows := 1, keyTransform := noChange,
    sanitize := trim, filter := noFilter }

/-- The grid of the object-mapping example of the spec. -/
def demoGrid : Grid :=
  [["Name", "Email"], ["Ada", "ada@x.com"], ["", "b@x.com"]]

/-- A remote that serves the demo grid on the configured range and accepts
appends reporting one updated row. -/
def demoRemote : Remote :=
  { fetch := fun ρ => if ρ = "Sheet1!A:B" then some demoGrid else none,
    appendRow := fun _ _ => some (some 1) }

/-- A remote whose append returns a response with zero updated rows. -/
def zeroRowsRemote : Remote :=
  { fetch := fun ρ => if ρ = "Sheet1!A:B" then some demoGrid else none,
    appendRow := fun _ _ => some (some 0) }

/-- The state of a freshly constructed instance without preload. -/
def emptyState : SheetState := { gridK := .empty, colsK := .empty }

/-- A remote whose append accepts exactly the raw, unsanitized demo row, to
observe what row the append path transmits. -/
def probeRemote : Remote :=
  { fetch := demoRemote.fetch,
    appendRow := fun _ rows =>
      if rows = [[some (InputType.str "  a  b ")]] then some (some 1) else none }

/-- A remote whose append accepts exactly the sanitized form of the demo row,
to observe that the append path does not transmit it. -/
def probeSanitizedRemote : Remote :=
  { fetch := demoRemote.fetch,
    appendRow := fun _ rows =>
      if rows = [[some (InputType.str "a b")]] then some (some 1) else none }

/-- The demo configuration with headerRows set to zero. -/
def hr0Config : SheetConfig :=
  { demoConfig with headerRows := 0 }

end Gsheet

namespace Gsheet

lemma jsWhitespace_space : jsWhitespace ' ' = true := by decide

lemma dropWhile_cons_false {p : Char → Bool} {a : Char} {l : List Char}
    (h : p a = false) : (a :: l).dropWhile p = a :: l := by
  simp [List.dropWhile_cons, h]

lemma dropWhile_collapse_true (l : List Char) :
    (collapseAux true l).dropWhile jsWhitespace = collapseAux true l := by
  induction l with
  | nil => rfl
  | cons c t ih =>
    by_cases h : jsWhitespace c
    · simpa [collapseAux, h] using ih
    · rw [collapseAux]
      simp only [h, if_false]
      exact dropWhile_cons_false (by simpa using h)

lemma dropWhile_collapse_false (l : List Char) :
    (collapseAux false l).dropWhile jsWhitespace = collapseAux true l := by
  cases l with
  | nil => rfl
  | cons c t =>
    by_cases h : jsWhitespace c
    · have h1 : collapseAux false (c :: t) = ' ' :: collapseAux true t := by
        simp [collapseAux, h]
      have h2 : collapseAux true (c :: t) = collapseAux true t := by
        simp [collapseAux, h]
      rw [h1, h2, List.dropWhile_cons]
      simp only [jsWhitespace_space, if_true]
      exact dropWhile_collapse_true t
    · have h1 : collapseAux false (c :: t) = c :: collapseAux false t := by
        simp [collapseAux, h]
      have h2 : collapseAux true (c :: t) = c :: collapseAux false t := by
        simp [collapseAux, h]
      rw [h1, h2]
      exact dropWhile_cons_false (by simpa using h)

end Gsheet

namespace Gsheet

lemma wordsAux_ne_nil : ∀ (l cur : List Char), cur ≠ [] → wordsAux cur l ≠ [] := by
  intro l
  induction l with
  | nil =>
    intro cur hcur
    cases cur with
    | nil => exact absurd rfl hcur
    | cons x xs => simp [wordsAux]
  | cons c t ih =>
    intro cur hcur
    cases cur with
    | nil => exact absurd rfl hcur
    | cons x xs =>
      cases h : jsWhitespace c with
      | true => simp [wordsAux, h]
      | false =>
        rw [wordsAux]
        simp only [h, Bool.false_eq_true, if_false]
        exact ih (c :: x :: xs) (List.cons_ne_nil _ _)

lemma wordsAux_nil_all_ws : ∀ l : List Char, wordsAux [] l = [] →
    ∀ c ∈ l, jsWhitespace c = true := by
  intro l
  induction l with
  | nil => intro _ c hc; cases hc
  | cons c t ih =>
    intro hw d hd
    cases h : jsWhitespace c with
    | true =>
      have ht : wordsAux [] t = [] := by
        rw [wordsAux] at hw
        simpa [h] using hw
      rcases List.mem_cons.mp hd with rfl | hdt
      · exact h
      · exact ih ht d hdt
    | false =>
      exfalso
      rw [wordsAux] at hw
      simp only [h, Bool.false_eq_true, if_false] at hw
      exact wordsAux_ne_nil t [c] (List.cons_ne_nil _ _) hw

lemma endsWs_cons_of_ne {c : Char} {t : List Char} (h : t ≠ []) :
    endsWs (c :: t) = endsWs t := by
  cases t with
  | nil => exact absurd rfl h
  | cons b t2 => rfl

lemma all_ws_endsWs : ∀ l : List Char, l ≠ [] → (∀ c ∈ l, jsWhitespace c = true) →
    endsWs l = true := by
  intro l
  induction l with
  | nil => intro h; exact absurd rfl h
  | cons c t ih =>
    intro _ hall
    cases t with
    | nil => simpa [endsWs] using hall c (List.mem_singleton.mpr rfl)
    | cons b t2 =>
      rw [endsWs_cons_of_ne (List.cons_ne_nil _ _)]
      exact ih (List.cons_ne_nil _ _) (fun d hd => hall d (List.mem_cons_of_mem _ hd))

lemma wordsAux_good : ∀ (l cur : List Char), (∀ c ∈ cur, jsWhitespace c = false) →
    ∀ w ∈ wordsAux cur l, w ≠ [] ∧ ∀ c ∈ w, jsWhitespace c = false := by
  intro l
  induction l with
  | nil =>
    intro cur hcur w hw
    cases cur with
    | nil => simp [wordsAux] at hw
    | cons x xs =>
      simp [wordsAux] at hw
      subst hw
      refine ⟨by simp, fun c hc => hcur c (by simp at hc ⊢; tauto)⟩
  | cons c t ih =>
    intro cur hcur w hw
    cases h : jsWhitespace c with
    | true =>
      cases cur with
      | nil =>
        rw [wordsAux] at hw
        simp only [h, if_true, List.isEmpty_nil] at hw
        exact ih [] (by intro d hd; cases hd) w hw
      | cons x xs =>
        rw [wordsAux] at hw
        simp [h] at hw
        rcases hw with rfl | hw
        · exact ⟨by simp, fun d hd => hcur d (by simp at hd ⊢; tauto)⟩
        · exact ih [] (by intro d hd; cases hd) w hw
    | false =>
      rw [wordsAux] at hw
      simp only [h, Bool.false_eq_true, if_false] at hw
      refine ih (c :: cur) ?_ w hw
      intro d hd
      rcases List.mem_cons.mp hd with rfl | hd
      · exact h
      · exact hcur d hd

lemma trailMark_cons_of_ne {c : Char} {t : List Char} (h : t ≠ []) :
    trailMark (c :: t) = trailMark t := by
  rw [trailMark, trailMark, endsWs_cons_of_ne h]

lemma trailMark_cons_not_ws {c : Char} {t : List Char} (h : jsWhitespace c = false) :
    trailMark (c :: t) = trailMark t := by
  cases t with
  | nil => simp [trailMark, endsWs, h]
  | cons b t2 => exact trailMark_cons_of_ne (List.cons_ne_nil _ _)

lemma joinWords_cons_cons (w w2 : List Char) (ws : List (List Char)) :
    joinWords (w :: w2 :: ws) = w ++ ' ' :: joinWords (w2 :: ws) := rfl

lemma collapse_true_words : ∀ l : List Char,
    (collapseAux true l =
      joinWords (wordsOf l) ++ (if wordsOf l = [] then [] else trailMark l)) ∧
    (∀ cur, cur ≠ [] →
      cur.reverse ++ collapseAux false l = joinWords (wordsAux cur l) ++ trailMark l) := by
  intro l
  induction l with
  | nil =>
    constructor
    · simp [collapseAux, wordsOf, wordsAux, joinWords]
    · intro cur hcur
      cases cur with
      | nil => exact absurd rfl hcur
      | cons x xs => simp [collapseAux, wordsAux, joinWords, trailMark, endsWs]
  | cons c t ih =>
    obtain ⟨ih1, ih2⟩ := ih
    cases hc : jsWhitespace c with
    | true =>
      have hct : collapseAux true (c :: t) = collapseAux true t := by
        simp [collapseAux, hc]
      have hcf : collapseAux false (c :: t) = ' ' :: collapseAux true t := by
        simp [collapseAux, hc]
      have hwn : wordsOf (c :: t) = wordsOf t := by
        unfold wordsOf
        rw [wordsAux]
        simp [hc]
      constructor
      · rw [hct, hwn]
        by_cases hW : wordsOf t = []
        · simpa [hW, joinWords] using ih1
        · have ht : t ≠ [] := by
            intro h; subst h; exact hW rfl
          rw [if_neg hW, trailMark_cons_of_ne ht]
          rw [if_neg hW] at ih1
          exact ih1
      · intro cur hcur
        cases cur with
        | nil => exact absurd rfl hcur
        | cons x xs =>
          have hwc : wordsAux (x :: xs) (c :: t) = (x :: xs).reverse :: wordsAux [] t := by
            rw [wordsAux]
            simp [hc]
          rw [hcf, hwc]
          by_cases hW : wordsAux [] t = []
          · have hctt : collapseAux true t = [] := by
              unfold wordsOf at ih1
              simpa [hW, joinWords] using ih1
            have hmark : trailMark (c :: t) = [' '] := by
              cases t with
              | nil => simp [trailMark, endsWs, hc]
              | cons b t2 =>
                rw [trailMark, endsWs_cons_of_ne (List.cons_ne_nil _ _),
                  all_ws_endsWs (b :: t2) (List.cons_ne_nil _ _)
                    (wordsAux_nil_all_ws (b :: t2) hW)]
                simp
            rw [hW, hctt, hmark]
            simp [joinWords]
          · have ht : t ≠ [] := by
              intro h; subst h; exact hW rfl
            have hctt : collapseAux true t = joinWords (wordsAux [] t) ++ trailMark t := by
              unfold wordsOf at ih1
              rw [if_neg hW] at ih1
              exact ih1
            obtain ⟨w0, W2, hW2⟩ : ∃ w0 W2, wordsAux [] t = w0 :: W2 := by
              cases hww : wordsAux [] t with
              | nil => exact absurd hww hW
              | cons a b => exact ⟨a, b, rfl⟩
            rw [hctt, hW2, joinWords_cons_cons, trailMark_cons_of_ne ht]
            simp [List.cons_append, List.append_assoc]
    | false =>
      have hct : collapseAux true (c :: t) = c :: collapseAux false t := by
        simp [collapseAux, hc]
      have hcf : collapseAux false (c :: t) = c :: collapseAux false t := by
        simp [collapseAux, hc]
      constructor
      · have hw : wordsOf (c :: t) = wordsAux [c] t := by
          unfold wordsOf
          rw [wordsAux]
          simp [hc]
        have hne : wordsAux [c] t ≠ [] := wordsAux_ne_nil t [c] (List.cons_ne_nil _ _)
        rw [hct, hw, if_neg hne, trailMark_cons_not_ws hc]
        simpa using ih2 [c] (List.cons_ne_nil _ _)
      · intro cur hcur
        cases cur with
        | nil => exact absurd rfl hcur
        | cons x xs =>
          have hwa : wordsAux (x :: xs) (c :: t) = wordsAux (c :: x :: xs) t := by
            rw [wordsAux]
            simp [hc]
          rw [hcf, hwa, trailMark_cons_not_ws hc, List.append_cons, ← List.reverse_cons]
          exact ih2 (c :: x :: xs) (List.cons_ne_nil _ _)

end Gsheet

namespace Gsheet

lemma dropWhile_length_le (p : Char → Bool) : ∀ l : List Char,
    (l.dropWhile p).length ≤ l.length := by
  intro l
  induction l with
  | nil => simp
  | cons a t ih =>
    rw [List.dropWhile_cons]
    cases h : p a with
    | true => exact le_trans ih (Nat.le_succ _)
    | false => simp

lemma dropTrailingWs_eq_self (l : List Char) (h : ∀ c ∈ l, jsWhitespace c = false) :
    dropTrailingWs l = l := by
  unfold dropTrailingWs
  have hdw : l.reverse.dropWhile jsWhitespace = l.reverse := by
    cases hr : l.reverse with
    | nil => rfl
    | cons a z =>
      have ha : a ∈ l := by
        rw [← List.mem_reverse, hr]
        exact List.mem_cons_self a z
      exact dropWhile_cons_false (h a ha)
  rw [hdw, List.reverse_reverse]

lemma dropTrailingWs_append_space (x : List Char) :
    dropTrailingWs (x ++ [' ']) = dropTrailingWs x := by
  unfold dropTrailingWs
  simp [List.reverse_append, List.dropWhile_cons, jsWhitespace_space]

lemma dropTrailingWs_append_of_last (u v : List Char) (c : Char) (z : List Char)
    (hv : v.reverse = c :: z) (hc : jsWhitespace c = false) :
    dropTrailingWs (u ++ v) = u ++ v := by
  have h1 : (u ++ v).reverse = c :: (z ++ u.reverse) := by
    rw [List.reverse_append, hv, List.cons_append]
  unfold dropTrailingWs
  rw [h1, dropWhile_cons_false hc, ← h1, List.reverse_reverse]

lemma joinWords_ne_nil (w : List Char) (ws : List (List Char)) (h : w ≠ []) :
    joinWords (w :: ws) ≠ [] := by
  cases ws with
  | nil => simpa [joinWords] using h
  | cons w2 ws2 =>
    rw [joinWords_cons_cons]
    simp [h]

lemma lastChar_not_ws_of_dropTrailing (v : List Char) (hne : v ≠ [])
    (hself : dropTrailingWs v = v) :
    ∃ c z, v.reverse = c :: z ∧ jsWhitespace c = false := by
  obtain ⟨c, z, hr⟩ : ∃ c z, v.reverse = c :: z := by
    cases hrr : v.reverse with
    | nil =>
      exfalso
      exact hne (by simpa using congrArg List.reverse hrr)
    | cons a b => exact ⟨a, b, rfl⟩
  refine ⟨c, z, hr, ?_⟩
  have hdw : v.reverse.dropWhile jsWhitespace = v.reverse := by
    have h2 := congrArg List.reverse hself
    rwa [dropTrailingWs, List.reverse_reverse] at h2
  rw [hr] at hdw
  cases hcc : jsWhitespace c with
  | false => rfl
  | true =>
    exfalso
    rw [List.dropWhile_cons, hcc, if_pos rfl] at hdw
    have hlen := congrArg List.length hdw
    rw [List.length_cons] at hlen
    have hle := dropWhile_length_le jsWhitespace z
    omega

lemma dropTrailing_joinWords : ∀ W : List (List Char),
    (∀ w ∈ W, w ≠ [] ∧ ∀ c ∈ w, jsWhitespace c = false) →
    dropTrailingWs (joinWords W) = joinWords W := by
  intro W
  induction W with
  | nil => intro _; rfl
  | cons w ws ih =>
    intro hgood
    cases ws with
    | nil =>
      have hw := hgood w (List.mem_cons_self _ _)
      have : joinWords [w] = w := rfl
      rw [this]
      exact dropTrailingWs_eq_self w hw.2
    | cons w2 ws2 =>
      have hj : joinWords (w :: w2 :: ws2) = (w ++ [' ']) ++ joinWords (w2 :: ws2) := by
        rw [joinWords_cons_cons, List.append_assoc, List.singleton_append]
      have hih : dropTrailingWs (joinWords (w2 :: ws2)) = joinWords (w2 :: ws2) :=
        ih (fun x hx => hgood x (List.mem_cons_of_mem _ hx))
      have hne : joinWords (w2 :: ws2) ≠ [] :=
        joinWords_ne_nil w2 ws2 (hgood w2 (by simp)).1
      obtain ⟨c, z, hr, hc⟩ := lastChar_not_ws_of_dropTrailing _ hne hih
      rw [hj]
      exact dropTrailingWs_append_of_last _ _ c z hr hc

lemma jsTrim_collapse (l : List Char) :
    jsTrimChars (collapseAux false l) = joinWords (wordsOf l) := by
  unfold jsTrimChars
  rw [dropWhile_collapse_false]
  by_cases hW : wordsOf l = []
  · have h0 : collapseAux true l = [] := by
      have h1 := (collapse_true_words l).1
      simpa [hW, joinWords] using h1
    rw [h0, hW]
    rfl
  · have h1 : collapseAux true l = joinWords (wordsOf l) ++ trailMark l := by
      have h2 := (collapse_true_words l).1
      rwa [if_neg hW] at h2
    have hgood : ∀ w ∈ wordsOf l, w ≠ [] ∧ ∀ c ∈ w, jsWhitespace c = false :=
      wordsAux_good l [] (by intro d hd; cases hd)
    rw [h1]
    unfold trailMark
    cases hE : endsWs l with
    | true =>
      rw [if_pos rfl, dropTrailingWs_append_space]
      exact dropTrailing_joinWords _ hgood
    | false =>
      rw [if_neg (by simp), List.append_nil]
      exact dropTrailing_joinWords _ hgood

lemma trimStr_eq_specSanitize (s : String) : trimStr s = specSanitize s := by
  unfold trimStr specSanitize
  rw [jsTrim_collapse]

end Gsheet

namespace Keeper

lemma kFold_getStart_pending {α : Type} : ∀ (n w i c : Nat) (d : List (Nat × KOutcome α)),
    List.foldl kStep (⟨.pending w, i, c, d⟩ : KRun α) (List.replicate n .getStart) =
      ⟨.pending (w + n), i, c, d⟩ := by
  intro n
  induction n with
  | zero => intro w i c d; simp
  | succ n ih =>
    intro w i c d
    rw [List.replicate_succ, List.foldl_cons]
    have h1 : kStep (⟨.pending w, i, c, d⟩ : KRun α) .getStart =
        ⟨.pending (w + 1), i, c, d⟩ := rfl
    rw [h1, ih]
    have h2 : w + 1 + n = w + (n + 1) := by omega
    rw [h2]

lemma kStep_inv {α : Type} (k : KRun α) (e : KEvent α)
    (h : k.invoked = k.completed + pendCount k.st) :
    (kStep k e).invoked = (kStep k e).completed + pendCount (kStep k e).st := by
  obtain ⟨st, i, c, d⟩ := k
  cases e <;> cases st <;> simp [kStep, pendCount] at h ⊢ <;> omega

lemma kRun_inv_aux {α : Type} : ∀ (evs : List (KEvent α)) (k : KRun α),
    k.invoked = k.completed + pendCount k.st →
    (List.foldl kStep k evs).invoked =
      (List.foldl kStep k evs).completed + pendCount (List.foldl kStep k evs).st := by
  intro evs
  induction evs with
  | nil => intro k h; simpa using h
  | cons e t ih =>
    intro k h
    rw [List.foldl_cons]
    exact ih _ (kStep_inv k e h)

end Keeper

namespace Gsheet

lemma getCFSC_settled (cfg : SheetConfig) (r : Remote) (g : Grid)
    (ckv : KeeperState (List String)) :
    getColumnsFromSheetCache cfg r ⟨.settled g, ckv⟩ = ⟨.ok g, ⟨.settled g, ckv⟩, []⟩ := rfl

lemma getCFSC_empty (cfg : SheetConfig) (r : Remote) (ckv : KeeperState (List String)) :
    getColumnsFromSheetCache cfg r ⟨.empty, ckv⟩ =
      ⟨getSheetAt r (headerRange cfg), ⟨.empty, ckv⟩, [headerRange cfg]⟩ := rfl

lemma getColumnsFromSheetCache_st (cfg : SheetConfig) (r : Remote) (s : SheetState) :
    (getColumnsFromSheetCache cfg r s).st = s := by
  obtain ⟨gk, ck⟩ := s
  cases gk <;> rfl

lemma getColumns_spec (cfg : SheetConfig) (r : Remote) (s : SheetState) :
    (getColumns cfg r s).st = s ∧
    (getColumns cfg r s).log = (getColumnsFromSheetCache cfg r s).log := by
  unfold getColumns
  have hst := getColumnsFromSheetCache_st cfg r s
  cases hres : (getColumnsFromSheetCache cfg r s).res with
  | error e => simp [hres, hst]
  | ok rows =>
    cases hidx : jsIdx rows ((cfg.headerRows : Int) - 1) with
    | none => simp [hres, hidx, hst]
    | some cols =>
      by_cases hemp : cols.isEmpty <;> simp [hres, hidx, hemp, hst]

lemma columnsOp_settled (cfg : SheetConfig) (r : Remote) (gkv : KeeperState Grid)
    (cs : List String) :
    columnsOp cfg r ⟨gkv, .settled cs⟩ = ⟨.ok cs, ⟨gkv, .settled cs⟩, []⟩ := rfl

lemma columnsOp_st_gridK (cfg : SheetConfig) (r : Remote) (s : SheetState) :
    (columnsOp cfg r s).st.gridK = s.gridK := by
  obtain ⟨gk, ck⟩ := s
  cases ck with
  | settled cs => rfl
  | empty =>
    unfold columnsOp
    cases hres : (getColumns cfg r ⟨gk, .empty⟩).res with
    | ok cs =>
      simp only [hres]
      rw [(getColumns_spec cfg r ⟨gk, .empty⟩).1]
    | error e =>
      simp only [hres]
      rw [(getColumns_spec cfg r ⟨gk, .empty⟩).1]

lemma columnsOp_st_colsK_empty (cfg : SheetConfig) (r : Remote) (s : SheetState)
    (e : GErr) (h : s.colsK = .empty) (herr : (columnsOp cfg r s).res = .error e) :
    (columnsOp cfg r s).st.colsK = .empty := by
  obtain ⟨gk, ck⟩ := s
  cases ck with
  | settled cs => simp at h
  | empty =>
    unfold columnsOp at herr ⊢
    cases hres : (getColumns cfg r ⟨gk, .empty⟩).res with
    | ok cs => simp [hres] at herr
    | error e2 =>
      simp only [hres]
      rw [(getColumns_spec cfg r ⟨gk, .empty⟩).1]

end Gsheet

namespace Gsheet

lemma rowsOp_settled (cfg : SheetConfig) (r : Remote) (g : Grid)
    (ckv : KeeperState (List String)) :
    rowsOp cfg r ⟨.settled g, ckv⟩ =
      ⟨.ok (((g.drop cfg.headerRows).map (fun row => row.map (sanitizeCell cfg))).filter
        (fun row => cfg.filter (.inl row))), ⟨.settled g, ckv⟩, []⟩ := rfl

lemma rowsOp_empty_some (cfg : SheetConfig) (r : Remote) (ckv : KeeperState (List String))
    (g : Grid) (hf : r.fetch cfg.range = some g) :
    rowsOp cfg r ⟨.empty, ckv⟩ =
      ⟨.ok (((g.drop cfg.headerRows).map (fun row => row.map (sanitizeCell cfg))).filter
        (fun row => cfg.filter (.inl row))), ⟨.settled g, ckv⟩, [cfg.range]⟩ := by
  unfold rowsOp gridGet
  simp [hf]

lemma rowsOp_empty_none (cfg : SheetConfig) (r : Remote) (ckv : KeeperState (List String))
    (hf : r.fetch cfg.range = none) :
    rowsOp cfg r ⟨.empty, ckv⟩ = ⟨.error .noData, ⟨.empty, ckv⟩, [cfg.range]⟩ := by
  unfold rowsOp gridGet
  simp [hf]

lemma rowsOp_st_colsK (cfg : SheetConfig) (r : Remote) (s : SheetState) :
    (rowsOp cfg r s).st.colsK = s.colsK := by
  obtain ⟨gk, ck⟩ := s
  cases gk with
  | settled g => rfl
  | empty =>
    cases hf : r.fetch cfg.range with
    | some g => rw [rowsOp_empty_some cfg r ck g hf]
    | none => rw [rowsOp_empty_none cfg r ck hf]

lemma columnsOp_of_colsK_settled (cfg : SheetConfig) (r : Remote) (s : SheetState)
    (cs : List String) (h : s.colsK = .settled cs) :
    columnsOp cfg r s = ⟨.ok cs, s, []⟩ := by
  obtain ⟨gk, ck⟩ := s
  have h2 : ck = KeeperState.settled cs := h
  subst h2
  rfl

lemma columnsOp_log_of_gridK_settled (cfg : SheetConfig) (r : Remote) (s : SheetState)
    (g : Grid) (h : s.gridK = .settled g) :
    (columnsOp cfg r s).log = [] := by
  obtain ⟨gk, ck⟩ := s
  have h2 : gk = KeeperState.settled g := h
  subst h2
  cases ck with
  | settled cs => rfl
  | empty =>
    unfold columnsOp
    cases hres : (getColumns cfg r ⟨.settled g, .empty⟩).res with
    | ok cs =>
      simp only [hres]
      rw [(getColumns_spec cfg r ⟨.settled g, .empty⟩).2, getCFSC_settled]
    | error e =>
      simp only [hres]
      rw [(getColumns_spec cfg r ⟨.settled g, .empty⟩).2, getCFSC_settled]

lemma range_ne_headerRange (cfg : SheetConfig) : cfg.range ≠ headerRange cfg := by
  intro h
  have hlen := congrArg String.length h
  rw [headerRange, String.length_append, String.length_append, String.length_append,
    String.length_append] at hlen
  have h2 : ("!A" : String).length = 2 := rfl
  have h4 : (":ZZZ" : String).length = 4 := rfl
  omega

lemma normalize_arr (cfg : SheetConfig) (r : Remote) (s : SheetState) (row : List InputType) :
    normalizeInputData cfg r s (.arr row) = ⟨.ok (row.map some), s, []⟩ := rfl

lemma normalize_st_gridK (cfg : SheetConfig) (r : Remote) (s : SheetState)
    (arg : AppendInput) : (normalizeInputData cfg r s arg).st.gridK = s.gridK := by
  cases arg with
  | arr row => rfl
  | obj ent =>
    unfold normalizeInputData
    cases hres : (columnsOp cfg r s).res with
    | ok cols =>
      simp only [hres]
      rw [columnsOp_st_gridK]
    | error e =>
      simp only [hres]
      rw [columnsOp_st_gridK]

lemma normalize_st_colsK_settled (cfg : SheetConfig) (r : Remote) (s : SheetState)
    (arg : AppendInput) (cs : List String) (h : s.colsK = .settled cs) :
    (normalizeInputData cfg r s arg).st.colsK = .settled cs := by
  cases arg with
  | arr row => rw [normalize_arr]; exact h
  | obj ent =>
    unfold normalizeInputData
    rw [columnsOp_of_colsK_settled cfg r s cs h]
    exact h

lemma getColumns_hr0 (cfg : SheetConfig) (r : Remote) (s : SheetState)
    (h0 : cfg.headerRows = 0) : ∃ e, (getColumns cfg r s).res = .error e := by
  unfold getColumns
  cases hres : (getColumnsFromSheetCache cfg r s).res with
  | error e => exact ⟨e, by simp [hres]⟩
  | ok rows =>
    have hidx : jsIdx rows ((cfg.headerRows : Int) - 1) = none := by
      rw [h0]
      simp [jsIdx]
    exact ⟨.emptyHeader, by simp [hres, hidx]⟩

lemma columnsOp_hr0 (cfg : SheetConfig) (r : Remote) (s : SheetState)
    (h0 : cfg.headerRows = 0) (hc : s.colsK = .empty) :
    ∃ e, (columnsOp cfg r s).res = .error e ∧ (columnsOp cfg r s).st = s := by
  obtain ⟨gk, ck⟩ := s
  have h2 : ck = KeeperState.empty := hc
  subst h2
  obtain ⟨e, he⟩ := getColumns_hr0 cfg r ⟨gk, .empty⟩ h0
  refine ⟨e, ?_, ?_⟩
  · unfold columnsOp
    simp only [he]
  · unfold columnsOp
    simp only [he]
    rw [(getColumns_spec cfg r ⟨gk, .empty⟩).1]

lemma buildObjFrom_unnamed : ∀ (keys pre : List String) (j : Nat) (o : RowObject)
    (v v2 : String) (post : List String),
    (keys.get? (j + pre.length) = none ∨ keys.get? (j + pre.length) = some "") →
    buildObjFrom keys j o (pre ++ v :: post) = buildObjFrom keys j o (pre ++ v2 :: post) := by
  intro keys pre
  induction pre with
  | nil =>
    intro j o v v2 post h
    simp only [List.nil_append, List.length_nil, Nat.add_zero] at h ⊢
    rw [buildObjFrom, buildObjFrom]
    rw [List.get?_eq_getElem?] at h
    rcases h with h | h <;> simp [h]
  | cons p pre ih =>
    intro j o v v2 post h
    simp only [List.cons_append]
    rw [buildObjFrom, buildObjFrom]
    apply ih (j + 1)
    have hlen : j + (p :: pre).length = j + 1 + pre.length := by
      simp only [List.length_cons]
      omega
    rwa [hlen] at h

end Gsheet

namespace Gsheet

lemma dataOp_hr0 (cfg : SheetConfig) (r : Remote) (s : SheetState)
    (h0 : cfg.headerRows = 0) (hc : s.colsK = .empty) :
    ∃ e, (dataOp cfg r s).res = .error e := by
  unfold dataOp
  cases hres : (rowsOp cfg r s).res with
  | error e => exact ⟨e, by simp [hres]⟩
  | ok rows =>
    have hcc : (rowsOp cfg r s).st.colsK = .empty := by
      rw [rowsOp_st_colsK]
      exact hc
    obtain ⟨e, he, _⟩ := columnsOp_hr0 cfg r (rowsOp cfg r s).st h0 hcc
    exact ⟨e, by simp [hres, he]⟩

lemma rowsOp_ok_iff (cfg : SheetConfig) (r : Remote) (s : SheetState) :
    isOkE (rowsOp cfg r s).res = true ↔ (s.gridK ≠ .empty ∨ r.fetch cfg.range ≠ none) := by
  obtain ⟨gk, ck⟩ := s
  cases gk with
  | settled g =>
    rw [rowsOp_settled]
    simp [isOkE]
  | empty =>
    cases hf : r.fetch cfg.range with
    | some g =>
      rw [rowsOp_empty_some cfg r ck g hf]
      simp [isOkE, hf]
    | none =>
      rw [rowsOp_empty_none cfg r ck hf]
      simp [isOkE, hf]

lemma normalize_st_colsK_empty_hr0 (cfg : SheetConfig) (r : Remote) (s : SheetState)
    (arg : AppendInput) (h0 : cfg.headerRows = 0) (hc : s.colsK = .empty) :
    (normalizeInputData cfg r s arg).st.colsK = .empty := by
  cases arg with
  | arr row => rw [normalize_arr]; exact hc
  | obj ent =>
    obtain ⟨e, he, hst⟩ := columnsOp_hr0 cfg r s h0 hc
    unfold normalizeInputData
    simp only [he]
    rw [hst]
    exact hc

lemma appendOp_st_colsK (cfg : SheetConfig) (r : Remote) (s : SheetState)
    (arg : AppendInput) :
    (appendOp cfg r s arg).st.colsK = (normalizeInputData cfg r s arg).st.colsK := by
  unfold appendOp
  cases hn : (normalizeInputData cfg r s arg).res with
  | error e => simp [hn]
  | ok row =>
    cases ha : r.appendRow cfg.range [row] with
    | none => simp [hn, ha]
    | some u =>
      cases hu : updatedOk u with
      | true => simp [hn, ha, hu]
      | false => simp [hn, ha, hu]

lemma stepOp_colsK_empty_hr0 (cfg : SheetConfig) (r : Remote) (s : SheetState)
    (op : SheetOp) (h0 : cfg.headerRows = 0) (hc : s.colsK = .empty) :
    (stepOp cfg r s op).colsK = .empty := by
  cases op with
  | rows =>
    show (rowsOp cfg r s).st.colsK = .empty
    rw [rowsOp_st_colsK]
    exact hc
  | data =>
    show (dataOp cfg r s).st.colsK = .empty
    unfold dataOp
    cases hres : (rowsOp cfg r s).res with
    | error e =>
      simp only [hres]
      rw [rowsOp_st_colsK]
      exact hc
    | ok rows =>
      have hcc : (rowsOp cfg r s).st.colsK = .empty := by
        rw [rowsOp_st_colsK]
        exact hc
      obtain ⟨e, he, hst⟩ := columnsOp_hr0 cfg r (rowsOp cfg r s).st h0 hcc
      simp only [hres, he]
      rw [hst]
      exact hcc
  | columns =>
    show (columnsOp cfg r s).st.colsK = .empty
    obtain ⟨e, he, hst⟩ := columnsOp_hr0 cfg r s h0 hc
    rw [hst]
    exact hc
  | refresh => exact hc
  | tick =>
    show (tickOp cfg r s).colsK = .empty
    unfold tickOp
    cases hf : r.fetch cfg.range with
    | some g => simpa using hc
    | none => simpa using hc
  | append a =>
    show (appendOp cfg r s a).st.colsK = .empty
    rw [appendOp_st_colsK]
    exact normalize_st_colsK_empty_hr0 cfg r s a h0 hc

lemma stepOp_colsK_settled (cfg : SheetConfig) (r : Remote) (s : SheetState)
    (cs : List String) (op : SheetOp) (h : s.colsK = .settled cs) :
    (stepOp cfg r s op).colsK = .settled cs := by
  cases op with
  | rows =>
    show (rowsOp cfg r s).st.colsK = .settled cs
    rw [rowsOp_st_colsK]
    exact h
  | data =>
    show (dataOp cfg r s).st.colsK = .settled cs
    unfold dataOp
    cases hres : (rowsOp cfg r s).res with
    | error e =>
      simp only [hres]
      rw [rowsOp_st_colsK]
      exact h
    | ok rows =>
      have hcc : (rowsOp cfg r s).st.colsK = .settled cs := by
        rw [rowsOp_st_colsK]
        exact h
      simp only [hres]
      rw [columnsOp_of_colsK_settled cfg r (rowsOp cfg r s).st cs hcc]
      exact hcc
  | columns =>
    show (columnsOp cfg r s).st.colsK = .settled cs
    rw [columnsOp_of_colsK_settled cfg r s cs h]
    exact h
  | refresh => exact h
  | tick =>
    show (tickOp cfg r s).colsK = .settled cs
    unfold tickOp
    cases hf : r.fetch cfg.range with
    | some g => simpa using h
    | none => simpa using h
  | append a =>
    show (appendOp cfg r s a).st.colsK = .settled cs
    rw [appendOp_st_colsK]
    exact normalize_st_colsK_settled cfg r s a cs h

lemma runOps_colsK_settled (cfg : SheetConfig) (r : Remote) (cs : List String) :
    ∀ (ops : List SheetOp) (s : SheetState), s.colsK = .settled cs →
    (runOps cfg r ops s).colsK = .settled cs := by
  intro ops
  induction ops with
  | nil => intro s h; simpa [runOps] using h
  | cons op t ih =>
    intro s h
    rw [runOps, List.foldl_cons]
    exact ih (stepOp cfg r s op) (stepOp_colsK_settled cfg r s cs op h)

end Gsheet


open Gsheet in
/-- C1 counterexample: with a remote whose append response reports zero updated
rows, append fails but the grid Keeper has been reset, so the state is not left
as it was before the call, contrary to the claim. -/
theorem claim_C1_counterexample :
    (appendOp demoConfig zeroRowsRemote ⟨.settled demoGrid, .empty⟩
        (.arr [.str "a"])).res = .error .appendRejected ∧
    (appendOp demoConfig zeroRowsRemote ⟨.settled demoGrid, .empty⟩
        (.arr [.str "a"])).st.gridK ≠ KeeperState.settled demoGrid := by
  constructor
  · rfl
  · have h1 : (appendOp demoConfig zeroRowsRemote ⟨.settled demoGrid, .empty⟩
        (.arr [.str "a"])).st.gridK = KeeperState.empty := rfl
    rw [h1]
    simp

open Gsheet in
/-- C1 amended: append resets the grid Keeper exactly when the remote append
call returns without throwing, whether or not it reports updated rows; a
response without a positive updatedRows count still raises an error, but only a
thrown request or a failed input normalization leaves the grid Keeper as it
was. -/
theorem claim_C1_amended (cfg : SheetConfig) (r : Remote) (s : SheetState)
    (arg : AppendInput) :
    (∀ row u, (normalizeInputData cfg r s arg).res = .ok row →
      r.appendRow cfg.range [row] = some u →
      ((appendOp cfg r s arg).st.gridK = .empty ∧
       ((appendOp cfg r s arg).res = .ok u ↔ updatedOk u = true) ∧
       (updatedOk u = false → (appendOp cfg r s arg).res = .error .appendRejected))) ∧
    (∀ row, (normalizeInputData cfg r s arg).res = .ok row →
      r.appendRow cfg.range [row] = none →
      ((appendOp cfg r s arg).res = .error .remoteThrew ∧
       (appendOp cfg r s arg).st.gridK = s.gridK)) ∧
    (∀ e, (normalizeInputData cfg r s arg).res = .error e →
      ((appendOp cfg r s arg).res = .error e ∧
       (appendOp cfg r s arg).st.gridK = s.gridK)) := by
  refine ⟨?_, ?_, ?_⟩
  · intro row u hn ha
    unfold appendOp
    simp only [hn, ha]
    cases hu : updatedOk u with
    | true => simp [hu]
    | false => simp [hu]
  · intro row hn ha
    unfold appendOp
    simp only [hn, ha]
    exact ⟨trivial, normalize_st_gridK cfg r s arg⟩
  · intro e hn
    unfold appendOp
    simp only [hn]
    exact ⟨trivial, normalize_st_gridK cfg r s arg⟩

open Gsheet in
/-- C1 witness: the amended theorem applied to the zero-updated-rows remote. -/
theorem claim_C1_witness :
    (appendOp demoConfig zeroRowsRemote ⟨.settled demoGrid, .empty⟩
        (.arr [.str "a"])).st.gridK = .empty ∧
    (appendOp demoConfig zeroRowsRemote ⟨.settled demoGrid, .empty⟩
        (.arr [.str "a"])).res = .error .appendRejected := by
  have h := (claim_C1_amended demoConfig zeroRowsRemote ⟨.settled demoGrid, .empty⟩
      (.arr [.str "a"])).1 [some (.str "a")] (some 0) rfl rfl
  exact ⟨h.1, h.2.2 rfl⟩

open Gsheet in
/-- C2 counterexample: a positional array input reaches the remote append call
unchanged, its cells never passed through the configured sanitize function: the
probe remote only accepts the raw row, yet the default sanitize would have
collapsed its whitespace. -/
theorem claim_C2_counterexample :
    (appendOp demoConfig probeRemote emptyState (.arr [.str "  a  b "])).res =
      .ok (some 1) ∧
    (appendOp demoConfig probeSanitizedRemote emptyState (.arr [.str "  a  b "])).res =
      .error .remoteThrew ∧
    Gsheet.trim (.str "  a  b ") = .str "a b" ∧
    Gsheet.trim (.str "  a  b ") ≠ .str "  a  b " := by
  exact ⟨rfl, by rfl, by decide, by decide⟩

open Gsheet in
/-- C2 amended: only mapping inputs are sanitized: normalizeInputData returns a
positional array input as is, while for an object input every transmitted cell
is the sanitize image of the case-insensitive column lookup. -/
theorem claim_C2_amended (cfg : SheetConfig) (r : Remote) (s : SheetState) :
    (∀ row : List InputType,
      normalizeInputData cfg r s (.arr row) = ⟨.ok (row.map some), s, []⟩) ∧
    (∀ ent row, (normalizeInputData cfg r s (.obj ent)).res = .ok row →
      ∃ cols, (columnsOp cfg r s).res = .ok cols ∧
        row = (cols.map (fun k => findEntry (entriesLower ent) (jsToLower k))).map
          (sanOpt cfg)) := by
  refine ⟨fun row => rfl, fun ent row h => ?_⟩
  unfold normalizeInputData at h
  cases hres : (columnsOp cfg r s).res with
  | error e => simp [hres] at h
  | ok cols =>
    simp only [hres] at h
    simp only [Except.ok.injEq] at h
    exact ⟨cols, rfl, h.symm⟩

open Gsheet in
/-- C2 witness: both halves of the amended claim at concrete inputs. -/
theorem claim_C2_witness :
    normalizeInputData demoConfig demoRemote ⟨.empty, .settled ["Name", "Email"]⟩
        (.arr [.str " x "]) =
      ⟨.ok [some (.str " x ")], ⟨.empty, .settled ["Name", "Email"]⟩, []⟩ ∧
    ∃ cols, (columnsOp demoConfig demoRemote
        ⟨.empty, .settled ["Name", "Email"]⟩).res = .ok cols ∧
      [none, some (InputType.str "x@y.com")] =
        (cols.map (fun k => findEntry
          (entriesLower [("email", InputType.str "x@y.com")]) (jsToLower k))).map
          (sanOpt demoConfig) := by
  refine ⟨(claim_C2_amended demoConfig demoRemote _).1 [.str " x "],
    (claim_C2_amended demoConfig demoRemote _).2 [("email", .str "x@y.com")]
      [none, some (.str "x@y.com")] (by rfl)⟩

open Gsheet in
/-- C3 counterexample: with columns Name and Email and input mapping only email,
the transmitted row carries an undefined cell for the unmatched Name column,
not an empty string, so the claimed row of two strings is wrong. -/
theorem claim_C3_counterexample :
    (normalizeInputData demoConfig demoRemote ⟨.empty, .settled ["Name", "Email"]⟩
        (.obj [("email", .str "x@y.com")])).res = .ok [none, some (.str "x@y.com")] ∧
    ([none, some (InputType.str "x@y.com")] : List JsVal) ≠
      [some (.str ""), some (.str "x@y.com")] := by
  exact ⟨by rfl, by decide⟩

open Gsheet in
/-- C3 amended: an object append input is matched case-insensitively against the
resolved column names and each matched value sits at its column position, but an
unmatched column yields an undefined cell, which the remote skips, rather than
an empty string; in the example the transmitted row is undefined followed by the
email value. -/
theorem claim_C3_amended (cfg : SheetConfig) (r : Remote) (gk : KeeperState Grid)
    (ent : List (String × InputType)) (cols : List String) :
    ((normalizeInputData cfg r ⟨gk, .settled cols⟩ (.obj ent)).res =
      .ok ((cols.map (fun k => findEntry (entriesLower ent) (jsToLower k))).map
        (sanOpt cfg))) ∧
    (∀ k : String, (∀ p ∈ entriesLower ent, p.1 ≠ jsToLower k) →
      findEntry (entriesLower ent) (jsToLower k) = none) ∧
    ((normalizeInputData demoConfig demoRemote ⟨.empty, .settled ["Name", "Email"]⟩
        (.obj [("email", .str "x@y.com")])).res = .ok [none, some (.str "x@y.com")]) := by
  refine ⟨?_, ?_, by rfl⟩
  · unfold normalizeInputData
    rw [columnsOp_of_colsK_settled cfg r ⟨gk, .settled cols⟩ cols rfl]
  · intro k hk
    unfold findEntry
    cases hf : (entriesLower ent).find? (fun p => p.1 == jsToLower k) with
    | none => rfl
    | some p =>
      exfalso
      have hbeq := List.find?_some hf
      have hmem := List.mem_of_find?_eq_some hf
      exact hk p hmem (by simpa using hbeq)

open Gsheet in
/-- C3 witness: an unmatched column name resolves to an undefined cell. -/
theorem claim_C3_witness :
    findEntry (entriesLower [("email", InputType.str "x@y.com")])
      (jsToLower "Name") = none :=
  (claim_C3_amended demoConfig demoRemote .empty [("email", .str "x@y.com")]
    ["Name", "Email"]).2.1 "Name" (by decide)

open Gsheet in
/-- C4: when the grid Keeper is empty, one data call performs exactly one
full-grid fetch and no narrow header-only fetch: the rows request populates the
grid Keeper and the columns producer reuses the settled grid. -/
theorem claim_C4 (cfg : SheetConfig) (r : Remote) (s : SheetState)
    (h : s.gridK = .empty) :
    (dataOp cfg r s).log.count cfg.range = 1 ∧
    (dataOp cfg r s).log.count (headerRange cfg) = 0 := by
  obtain ⟨gk, ck⟩ := s
  have h2 : gk = KeeperState.empty := h
  subst h2
  have hne := range_ne_headerRange cfg
  have hbe : (cfg.range == headerRange cfg) = false := by
    simpa using hne
  unfold dataOp
  cases hf : r.fetch cfg.range with
  | none =>
    rw [rowsOp_empty_none cfg r ck hf]
    simp [List.count_cons, hbe]
  | some g =>
    rw [rowsOp_empty_some cfg r ck g hf]
    have hlog : (columnsOp cfg r ⟨.settled g, ck⟩).log = [] :=
      columnsOp_log_of_gridK_settled cfg r ⟨.settled g, ck⟩ g rfl
    cases hres : (columnsOp cfg r ⟨.settled g, ck⟩).res with
    | ok keys => simp [hres, hlog, List.count_cons, hbe]
    | error e => simp [hres, hlog, List.count_cons, hbe]

open Gsheet in
/-- C4 witness: the theorem at the demo sheet. -/
theorem claim_C4_witness :
    (dataOp demoConfig demoRemote emptyState).log.count demoConfig.range = 1 ∧
    (dataOp demoConfig demoRemote emptyState).log.count (headerRange demoConfig) = 0 :=
  claim_C4 demoConfig demoRemote emptyState rfl

open Gsheet in
/-- C5: the columns producer reads the settled grid first: with a settled grid
Keeper a columns call fetches nothing and the grid Keeper keeps its value, and
any successful result is the header row sliced from that grid; with both
Keepers empty a columns call performs exactly the one narrow header-only fetch
and leaves the grid Keeper empty. -/
theorem claim_C5 (cfg : SheetConfig) (r : Remote) (s : SheetState) :
    (∀ g, s.gridK = .settled g →
      (columnsOp cfg r s).log = [] ∧ (columnsOp cfg r s).st.gridK = .settled g) ∧
    (s.gridK = .empty → s.colsK = .empty →
      (columnsOp cfg r s).log = [headerRange cfg] ∧
      (columnsOp cfg r s).st.gridK = .empty) ∧
    (∀ g cs, s.gridK = .settled g → s.colsK = .empty →
      (columnsOp cfg r s).res = .ok cs →
      ∃ raw, jsIdx g ((cfg.headerRows : Int) - 1) = some raw ∧ raw.isEmpty = false ∧
        cs = (raw.map (sanitizeCell cfg)).map cfg.keyTransform) := by
  refine ⟨?_, ?_, ?_⟩
  · intro g hg
    refine ⟨columnsOp_log_of_gridK_settled cfg r s g hg, ?_⟩
    rw [columnsOp_st_gridK]
    exact hg
  · intro hg hc
    obtain ⟨gk, ck⟩ := s
    have h2 : gk = KeeperState.empty := hg
    subst h2
    have h3 : ck = KeeperState.empty := hc
    subst h3
    constructor
    · unfold columnsOp
      cases hres : (getColumns cfg r ⟨.empty, .empty⟩).res with
      | ok cs =>
        simp only [hres]
        rw [(getColumns_spec cfg r ⟨.empty, .empty⟩).2, getCFSC_empty]
      | error e =>
        simp only [hres]
        rw [(getColumns_spec cfg r ⟨.empty, .empty⟩).2, getCFSC_empty]
    · rw [columnsOp_st_gridK]
  · intro g cs hg hc hres
    obtain ⟨gk, ck⟩ := s
    have h2 : gk = KeeperState.settled g := hg
    subst h2
    have h3 : ck = KeeperState.empty := hc
    subst h3
    unfold columnsOp at hres
    cases hgc : (getColumns cfg r ⟨.settled g, .empty⟩).res with
    | error e => simp [hgc] at hres
    | ok cs2 =>
      simp only [hgc, Except.ok.injEq] at hres
      subst hres
      unfold getColumns at hgc
      rw [getCFSC_settled] at hgc
      simp only at hgc
      cases hidx : jsIdx g ((cfg.headerRows : Int) - 1) with
      | none => simp [hidx] at hgc
      | some raw =>
        simp only [hidx] at hgc
        cases hemp : raw.isEmpty with
        | true => simp [hemp] at hgc
        | false =>
          simp only [hemp, Bool.false_eq_true, if_false, Except.ok.injEq] at hgc
          exact ⟨raw, rfl, hemp, hgc.symm⟩

open Gsheet in
/-- C5 witness: a header-only fetch on a fresh cache, leaving the grid empty. -/
theorem claim_C5_witness :
    (columnsOp demoConfig demoRemote emptyState).log = [headerRange demoConfig] ∧
    (columnsOp demoConfig demoRemote emptyState).st.gridK = .empty :=
  (claim_C5 demoConfig demoRemote emptyState).2.1 rfl rfl

open Keeper in
/-- C6: in the cooperative Keeper model, N callers that reach get while the cell
is empty trigger exactly one producer invocation, and when the shared future
settles all N receive the same value, or all the same failure; moreover along
any event trace the number of invocations started exceeds the number settled by
exactly the one in-flight pending future, so at most one producer invocation is
in flight at any moment. -/
theorem claim_C6 (α : Type) (N : Nat) (v : α) (hN : 1 ≤ N) :
    ((kRun (List.replicate N .getStart ++ [.settleOk v])).invoked = 1 ∧
     (kRun (List.replicate N .getStart ++ [.settleOk v])).deliveries = [(N, .ok v)]) ∧
    ((kRun (List.replicate N (KEvent.getStart (α := α)) ++ [.settleFail])).invoked = 1 ∧
     (kRun (List.replicate N (KEvent.getStart (α := α)) ++ [.settleFail])).deliveries =
       [(N, .fail)]) ∧
    (∀ evs : List (KEvent α),
      (kRun evs).invoked = (kRun evs).completed + pendCount (kRun evs).st) := by
  obtain ⟨n, rfl⟩ : ∃ n, N = n + 1 := ⟨N - 1, (Nat.succ_pred_eq_of_pos hN).symm⟩
  have hrep : List.foldl kStep (kInit : KRun α) (List.replicate (n + 1) .getStart) =
      ⟨.pending (n + 1), 1, 0, []⟩ := by
    rw [List.replicate_succ, List.foldl_cons]
    have h1 : kStep (kInit : KRun α) .getStart = ⟨.pending 1, 1, 0, []⟩ := rfl
    rw [h1, kFold_getStart_pending]
    have h2 : 1 + n = n + 1 := by omega
    rw [h2]
  refine ⟨⟨?_, ?_⟩, ⟨?_, ?_⟩, ?_⟩
  · rw [kRun, List.foldl_append, hrep]
    rfl
  · rw [kRun, List.foldl_append, hrep]
    rfl
  · rw [kRun, List.foldl_append, hrep]
    rfl
  · rw [kRun, List.foldl_append, hrep]
    rfl
  · intro evs
    exact kRun_inv_aux evs kInit rfl

open Keeper in
/-- C6 witness: two concurrent callers on a natural-number Keeper. -/
theorem claim_C6_witness :
    ((kRun (List.replicate 2 .getStart ++ [.settleOk (5 : Nat)])).invoked = 1 ∧
     (kRun (List.replicate 2 .getStart ++ [.settleOk (5 : Nat)])).deliveries =
       [(2, .ok 5)]) :=
  (claim_C6 Nat 2 5 (by decide)).1

open Gsheet in
/-- C7: with headerRows zero every columns call and every data call fails, the
columns Keeper can never settle, and rows is unaffected: it succeeds exactly
when the grid is obtainable. -/
theorem claim_C7 (cfg : SheetConfig) (r : Remote) (s : SheetState)
    (h0 : cfg.headerRows = 0) (hc : s.colsK = .empty) :
    (∃ e, (columnsOp cfg r s).res = .error e) ∧
    (∃ e, (dataOp cfg r s).res = .error e) ∧
    (∀ op, (stepOp cfg r s op).colsK = .empty) ∧
    (isOkE (rowsOp cfg r s).res = true ↔ (s.gridK ≠ .empty ∨ r.fetch cfg.range ≠ none)) := by
  refine ⟨?_, dataOp_hr0 cfg r s h0 hc,
    fun op => stepOp_colsK_empty_hr0 cfg r s op h0 hc, rowsOp_ok_iff cfg r s⟩
  obtain ⟨e, he, _⟩ := columnsOp_hr0 cfg r s h0 hc
  exact ⟨e, he⟩

open Gsheet in
/-- C7 witness: the theorem at the demo sheet with headerRows zero. -/
theorem claim_C7_witness :
    (∃ e, (columnsOp hr0Config demoRemote emptyState).res = .error e) ∧
    (∃ e, (dataOp hr0Config demoRemote emptyState).res = .error e) :=
  ⟨(claim_C7 hr0Config demoRemote emptyState rfl rfl).1,
   (claim_C7 hr0Config demoRemote emptyState rfl rfl).2.1⟩

open Gsheet in
/-- C8: the object mapper zips cells against column names by index, a cell whose
index has no column name, or an empty one, never influences the result, and the
demo sheet maps to the two claimed row objects, the empty cell included. -/
theorem claim_C8 :
    (∀ (keys pre post : List String) (v v2 : String),
      (keys.get? pre.length = none ∨ keys.get? pre.length = some "") →
      buildObj keys (pre ++ v :: post) = buildObj keys (pre ++ v2 :: post)) ∧
    (dataOp demoConfig demoRemote emptyState).res =
      .ok [[("Name", "Ada"), ("Email", "ada@x.com")], [("Name", ""), ("Email", "b@x.com")]] := by
  constructor
  · intro keys pre post v v2 h
    unfold buildObj
    exact buildObjFrom_unnamed keys pre 0 [] v v2 post (by simpa using h)
  · rfl

open Gsheet in
/-- C8 witness: a cell past the named columns is omitted from the object. -/
theorem claim_C8_witness :
    buildObj ["K"] (["a"] ++ "x" :: []) = buildObj ["K"] (["a"] ++ "y" :: []) :=
  claim_C8.1 ["K"] ["a"] [] "x" "y" (Or.inl rfl)

open Gsheet in
/-- C9: the default sanitize collapses every whitespace run, newlines included,
to one space and trims the ends, which is joining the maximal whitespace-free
words with single spaces; non-string values pass through unchanged; and the
spec example evaluates as claimed. -/
theorem claim_C9 :
    (∀ s : String, Gsheet.trim (.str s) = .str (specSanitize s)) ∧
    (∀ b : Bool, Gsheet.trim (.boolean b) = .boolean b) ∧
    (∀ n : Int, Gsheet.trim (.num n) = .num n) ∧
    Gsheet.trim .null = .null ∧
    Gsheet.trim (.str "  multi   space \n text ") = .str "multi space text" := by
  refine ⟨fun s => ?_, fun b => rfl, fun n => rfl, rfl, by decide⟩
  show InputType.str (trimStr s) = .str (specSanitize s)
  rw [trimStr_eq_specSanitize]

open Gsheet in
/-- C10: neither refresh nor append nor any other operation ever touches a
settled columns Keeper: after any operation sequence the columns Keeper still
holds the first-resolved header list, and a columns call returns it with no
fetch and no state change. -/
theorem claim_C10 (cfg : SheetConfig) (r : Remote) (s : SheetState)
    (cs : List String) (ops : List SheetOp) (h : s.colsK = .settled cs) :
    (runOps cfg r ops s).colsK = .settled cs ∧
    columnsOp cfg r (runOps cfg r ops s) = ⟨.ok cs, runOps cfg r ops s, []⟩ := by
  have hrun : (runOps cfg r ops s).colsK = .settled cs :=
    runOps_colsK_settled cfg r cs ops s h
  exact ⟨hrun, columnsOp_of_colsK_settled cfg r (runOps cfg r ops s) cs hrun⟩

open Gsheet in
/-- C10 witness: a refresh, an append and a rows call leave the settled columns
Keeper untouched. -/
theorem claim_C10_witness :
    (runOps demoConfig demoRemote [.refresh, .append (.arr [.str "x"]), .rows]
        ⟨.empty, .settled ["Name", "Email"]⟩).colsK = .settled ["Name", "Email"] ∧
    columnsOp demoConfig demoRemote
        (runOps demoConfig demoRemote [.refresh, .append (.arr [.str "x"]), .rows]
          ⟨.empty, .settled ["Name", "Email"]⟩) =
      ⟨.ok ["Name", "Email"],
        runOps demoConfig demoRemote [.refresh, .append (.arr [.str "x"]), .rows]
          ⟨.empty, .settled ["Name", "Email"]⟩, []⟩ :=
  claim_C10 demoConfig demoRemote ⟨.empty, .settled ["Name", "Email"]⟩
    ["Name", "Email"] [.refresh, .append (.arr [.str "x"]), .rows] rfl
